import Mathlib

/-!
Verification of the font value model in
`src/components/style_traits/values/font.rs`: `FontWeight`, `FontStretch`,
`FontVariantCaps` and `Source`/`EffectiveSources`, shallowly embedded from
the Rust source. Machine integers are modelled as `Nat`/`Int` (the `u16`
magnitude of a weight is a `Nat` that callers bound by `2^16`), the `f64`
interpolation axis of `FontStretch` as `ℚ`, and fallible operations return
`Except`/`Option`.
-/

namespace Servo.Font

/-- `FontWeight` (font.rs line 22): a wrapper around a 16-bit unsigned
magnitude.  The magnitude is modelled as a `Nat`; theorems that quantify
over the 16-bit range carry the bound `m < 65536` explicitly. -/
structure FontWeight where
  val : Nat
  deriving DecidableEq

/-- `FontWeight::normal` (font.rs line 26). -/
def FontWeight.normal : FontWeight := ⟨400⟩

/-- `FontWeight::bold` (font.rs line 31). -/
def FontWeight.bold : FontWeight := ⟨700⟩

/-- `FontWeight::from_int` (font.rs lines 36-42): validating constructor
from an `i32`; the Rust `%` is truncated remainder (`Int.tmod`), and the
`n as u16` cast is `Int.toNat` (exact because the guard forces
`100 ≤ n ≤ 900`).  `Result<Self, ()>` becomes `Except Unit FontWeight`. -/
def FontWeight.from_int (n : Int) : Except Unit FontWeight :=
  if n ≥ 100 ∧ n ≤ 900 ∧ Int.tmod n 100 = 0 then
    Except.ok ⟨n.toNat⟩
  else
    Except.error ()

/-- `FontWeight::from_gecko_weight` (font.rs lines 45-49): total
constructor accepting any 16-bit magnitude unchanged. -/
def FontWeight.from_gecko_weight (weight : Nat) : FontWeight := ⟨weight⟩

/-- `FontWeight::is_bold` (font.rs lines 52-54): `self.0 > 500`. -/
def FontWeight.is_bold (w : FontWeight) : Bool := w.val > 500

/-- `FontWeight::bolder` (font.rs lines 57-65). -/
def FontWeight.bolder (w : FontWeight) : FontWeight :=
  if w.val < 400 then ⟨400⟩
  else if w.val < 600 then ⟨700⟩
  else ⟨900⟩

/-- `FontWeight::lighter` (font.rs lines 68-76). -/
def FontWeight.lighter (w : FontWeight) : FontWeight :=
  if w.val < 600 then ⟨100⟩
  else if w.val < 800 then ⟨400⟩
  else ⟨700⟩

/-- `FontStretch` (font.rs lines 85-97): the closed 9-keyword enumeration,
declared in the order of the `define_css_keyword_enum!` invocation. -/
inductive FontStretch where
  | Normal
  | UltraCondensed
  | ExtraCondensed
  | Condensed
  | SemiCondensed
  | SemiExpanded
  | Expanded
  | ExtraExpanded
  | UltraExpanded
  deriving DecidableEq, Fintype

/-- `impl From<FontStretch> for f64` (font.rs lines 109-124): the numeric
projection onto the 1..9 interpolation axis, with `f64` modelled as `ℚ`. -/
def FontStretch.toNumber : FontStretch → ℚ
  | .UltraCondensed => 1
  | .ExtraCondensed => 2
  | .Condensed => 3
  | .SemiCondensed => 4
  | .Normal => 5
  | .SemiExpanded => 6
  | .Expanded => 7
  | .ExtraExpanded => 8
  | .UltraExpanded => 9

/-- `FONT_STRETCH_ENUM_MAP` (font.rs lines 130-132). -/
def FONT_STRETCH_ENUM_MAP : List FontStretch :=
  [.UltraCondensed, .ExtraCondensed, .Condensed, .SemiCondensed, .Normal,
   .SemiExpanded, .Expanded, .ExtraExpanded, .UltraExpanded]

/-- `impl Into<FontStretch> for f64` (font.rs lines 126-135): the numeric
inverse.  `(self + 0.5).floor().min(9.0).max(1.0)` becomes
`max 1 (min 9 ⌊x + 1/2⌋)` over `ℚ`; the `(index - 1.0) as usize` cast is
`Int.toNat` (exact: the clamped index is a nonnegative integer), and the
Rust array indexing, which panics out of bounds, is `List.get?`. -/
def fontStretchFromNumber (x : ℚ) : Option FontStretch :=
  let index : Int := max 1 (min 9 ⌊x + 1/2⌋)
  FONT_STRETCH_ENUM_MAP.get? (index - 1).toNat

/-- Serialization of `FontStretch` to its CSS keyword, from the string
table of the `define_css_keyword_enum!` invocation (font.rs lines 85-97). -/
def FontStretch.to_css : FontStretch → String
  | .Normal => "normal"
  | .UltraCondensed => "ultra-condensed"
  | .ExtraCondensed => "extra-condensed"
  | .Condensed => "condensed"
  | .SemiCondensed => "semi-condensed"
  | .SemiExpanded => "semi-expanded"
  | .Expanded => "expanded"
  | .ExtraExpanded => "extra-expanded"
  | .UltraExpanded => "ultra-expanded"

/-- Modelled from the spec: the parse direction generated by
`define_css_keyword_enum!` (the macro body lives outside `src/`; only its
invocation with the string table, font.rs lines 85-97, is present).  Per
the spec, parsing is the exact bidirectional mapping on those strings,
failing on any other input. -/
def FontStretch.from_css (s : String) : Option FontStretch :=
  if s = "normal" then some .Normal
  else if s = "ultra-condensed" then some .UltraCondensed
  else if s = "extra-condensed" then some .ExtraCondensed
  else if s = "condensed" then some .Condensed
  else if s = "semi-condensed" then some .SemiCondensed
  else if s = "semi-expanded" then some .SemiExpanded
  else if s = "expanded" then some .Expanded
  else if s = "extra-expanded" then some .ExtraExpanded
  else if s = "ultra-expanded" then some .UltraExpanded
  else none

/-- `FontVariantCaps` (font.rs lines 100-105): closed 2-value keyword
enumeration. -/
inductive FontVariantCaps where
  | Normal
  | SmallCaps
  deriving DecidableEq, Fintype

/-- Serialization of `FontVariantCaps` to its CSS keyword, from the string
table of the `define_css_keyword_enum!` invocation (font.rs lines 100-105). -/
def FontVariantCaps.to_css : FontVariantCaps → String
  | .Normal => "normal"
  | .SmallCaps => "small-caps"

/-- Modelled from the spec: the parse direction generated by
`define_css_keyword_enum!` for `FontVariantCaps` (macro body outside
`src/`), the exact bidirectional mapping on the two keyword strings. -/
def FontVariantCaps.from_css (s : String) : Option FontVariantCaps :=
  if s = "normal" then some .Normal
  else if s = "small-caps" then some .SmallCaps
  else none

/-- `Source` (font.rs lines 160-165): a font-face source, either a
`url()` (payload optional) or a `local()` named font.  The opaque
`ServoUrl` and `Atom` payloads are modelled as `String`. -/
inductive Source where
  | Url : Option String → Source
  | Local : String → Source
  deriving DecidableEq

/-- `EffectiveSources` (font.rs line 170): a wrapper around `Vec<Source>`,
modelled as a `List` in the same order. -/
structure EffectiveSources where
  sources : List Source
  deriving DecidableEq

/-- `Iterator::next` for `EffectiveSources` (font.rs lines 175-177):
`self.0.pop()`, i.e. remove and return the last element of the storage
(or `none` on an empty storage).  Since `Vec::pop` mutates `self`, the
embedding returns the popped element together with the updated state. -/
def EffectiveSources.next (e : EffectiveSources) :
    Option Source × EffectiveSources :=
  match e.sources.getLast? with
  | none => (none, e)
  | some s => (some s, ⟨e.sources.dropLast⟩)

/-- `Iterator::size_hint` for `EffectiveSources` (font.rs lines 179-181):
`(self.0.len(), Some(self.0.len()))`. -/
def EffectiveSources.size_hint (e : EffectiveSources) : Nat × Option Nat :=
  (e.sources.length, some e.sources.length)

/-- The sequence of elements produced by repeatedly calling
`EffectiveSources.next` until it signals exhaustion. -/
def EffectiveSources.drainAll (e : EffectiveSources) : List Source :=
  match h : e.next with
  | (none, _) => []
  | (some s, e2) => s :: e2.drainAll
termination_by e.sources.length
decreasing_by
  simp only [EffectiveSources.next] at h
  rcases hl : e.sources.getLast? with _ | s0
  · simp [hl] at h
  · simp only [hl, Prod.mk.injEq] at h
    obtain ⟨-, he⟩ := h
    subst he
    have hne : e.sources ≠ [] := by
      intro hnil; rw [hnil] at hl; exact absurd hl (by simp)
    simp only [List.length_dropLast]
    have hpos := List.length_pos.mpr hne
    omega

/-! Helper lemmas. -/

lemma next_nil : EffectiveSources.next ⟨[]⟩ = (none, ⟨[]⟩) := rfl

lemma next_concat (l : List Source) (s : Source) :
    EffectiveSources.next ⟨l ++ [s]⟩ = (some s, ⟨l⟩) := by
  simp [EffectiveSources.next, List.getLast?_concat, List.dropLast_concat]

lemma drainAll_nil : EffectiveSources.drainAll ⟨[]⟩ = [] := by
  rw [EffectiveSources.drainAll]
  split
  · rfl
  · rename_i s e2 heq
    rw [next_nil] at heq
    exact absurd heq (by simp)

lemma drainAll_concat (l : List Source) (s : Source) :
    EffectiveSources.drainAll ⟨l ++ [s]⟩ = s :: EffectiveSources.drainAll ⟨l⟩ := by
  rw [EffectiveSources.drainAll]
  split
  · rename_i heq
    rw [next_concat] at heq
    exact absurd heq (by simp)
  · rename_i s2 e2 heq
    rw [next_concat] at heq
    obtain ⟨h1, h2⟩ := Prod.mk.injEq .. ▸ heq
    obtain rfl := Option.some.injEq .. ▸ h1
    rw [h2]

lemma drainAll_eq_reverse (l : List Source) :
    EffectiveSources.drainAll ⟨l⟩ = l.reverse := by
  induction l using List.reverseRecOn with
  | nil => exact drainAll_nil
  | append_singleton l s ih => rw [drainAll_concat, ih, List.reverse_append]; rfl

lemma tmod_hundred_eq_zero_iff (n : Int) (hn : 0 ≤ n) :
    n.tmod 100 = 0 ↔ (100 : Int) ∣ n := by
  rw [Int.tmod_eq_emod hn (by norm_num)]
  exact Int.dvd_iff_emod_eq_zero.symm

/-! Claim theorems. -/

/-- C1: draining an `EffectiveSources` whose storage is `[s1, ..., sn]`
removes and returns the last element, so successive drains yield
`sn, ..., s1` and then `none`; the size hint is the exact remaining count
(lower and upper bound alike), decreasing by one per successful drain, as
in the concrete `[C, B, A]` run yielding `A, B, C`, `none`. -/
theorem effectiveSources_drain (l : List Source) (s : Source) :
    EffectiveSources.next ⟨l ++ [s]⟩ = (some s, ⟨l⟩) ∧
    EffectiveSources.next ⟨[]⟩ = (none, ⟨[]⟩) ∧
    EffectiveSources.size_hint ⟨l⟩ = (l.length, some l.length) ∧
    EffectiveSources.drainAll ⟨l⟩ = l.reverse ∧
    EffectiveSources.drainAll
        ⟨[Source.Local "C", Source.Local "B", Source.Local "A"]⟩ =
      [Source.Local "A", Source.Local "B", Source.Local "C"] :=
  ⟨next_concat l s, next_nil, rfl, drainAll_eq_reverse l, by
    rw [drainAll_eq_reverse]; rfl⟩

/-- C1 witness: one drain step at the concrete storage `[A]`. -/
theorem effectiveSources_drain_witness :
    EffectiveSources.next ⟨[] ++ [Source.Local "A"]⟩ =
      (some (Source.Local "A"), ⟨[]⟩) :=
  (effectiveSources_drain [] (Source.Local "A")).1

/-- C2: the numeric inverse `f64 -> FontStretch` is total — for every
input the clamped index `floor(x + 0.5)` lands inside the 9-entry table,
so the lookup never fails — and saturates/rounds as claimed:
`-5 ↦ UltraCondensed`, `99 ↦ UltraExpanded`, `4.5 ↦ Normal`,
`4.49 ↦ SemiCondensed`. -/
theorem fontStretchFromNumber_total :
    (∀ x : ℚ, (fontStretchFromNumber x).isSome = true) ∧
    fontStretchFromNumber (-5) = some FontStretch.UltraCondensed ∧
    fontStretchFromNumber 99 = some FontStretch.UltraExpanded ∧
    fontStretchFromNumber (4.5) = some FontStretch.Normal ∧
    fontStretchFromNumber (4.49) = some FontStretch.SemiCondensed := by
  refine ⟨?_, ?_, ?_, ?_, ?_⟩
  · intro x
    simp only [fontStretchFromNumber]
    have h1 : (1 : Int) ≤ max 1 (min 9 ⌊x + 1/2⌋) := le_max_left _ _
    have h2 : max 1 (min 9 ⌊x + 1/2⌋) ≤ 9 := max_le (by norm_num) (min_le_left _ _)
    rw [Option.isSome_iff_exists]
    have hlt : (max 1 (min 9 ⌊x + 1/2⌋) - 1).toNat < FONT_STRETCH_ENUM_MAP.length := by
      simp only [FONT_STRETCH_ENUM_MAP, List.length]
      omega
    exact ⟨_, List.get?_eq_get hlt⟩
  · have h : ⌊(-5 : ℚ) + 1/2⌋ = -5 := by norm_num
    simp only [fontStretchFromNumber, h]; decide
  · have h : ⌊(99 : ℚ) + 1/2⌋ = 99 := by norm_num
    simp only [fontStretchFromNumber, h]; decide
  · have h : ⌊(4.5 : ℚ) + 1/2⌋ = 5 := by norm_num
    simp only [fontStretchFromNumber, h]; decide
  · have h : ⌊(4.49 : ℚ) + 1/2⌋ = 4 := by norm_num
    simp only [fontStretchFromNumber, h]; decide

/-- C3: the numeric projection `FontStretch -> f64` maps the 9 variants
to indices 1.0..9.0 in narrowest-to-widest table order, and for each
keyword applying the projection and then the numeric inverse returns the
original keyword. -/
theorem fontStretch_projection_roundtrip :
    FontStretch.UltraCondensed.toNumber = 1 ∧
    FontStretch.ExtraCondensed.toNumber = 2 ∧
    FontStretch.Condensed.toNumber = 3 ∧
    FontStretch.SemiCondensed.toNumber = 4 ∧
    FontStretch.Normal.toNumber = 5 ∧
    FontStretch.SemiExpanded.toNumber = 6 ∧
    FontStretch.Expanded.toNumber = 7 ∧
    FontStretch.ExtraExpanded.toNumber = 8 ∧
    FontStretch.UltraExpanded.toNumber = 9 ∧
    ∀ s : FontStretch, fontStretchFromNumber s.toNumber = some s := by
  refine ⟨rfl, rfl, rfl, rfl, rfl, rfl, rfl, rfl, rfl, ?_⟩
  intro s
  cases s <;> simp only [FontStretch.toNumber, fontStretchFromNumber] <;> norm_num <;> decide

/-- C4: `FontWeight::bolder` steps a magnitude `m < 400` to 400, a
magnitude in `[400, 600)` to 700 and a magnitude `≥ 600` to 900, over the
whole 16-bit range; in particular `FontWeight(900).bolder() = FontWeight(900)`. -/
theorem fontWeight_bolder_spec (m : Nat) (h : m < 65536) :
    (m < 400 → (FontWeight.mk m).bolder = ⟨400⟩) ∧
    (400 ≤ m → m < 600 → (FontWeight.mk m).bolder = ⟨700⟩) ∧
    (600 ≤ m → (FontWeight.mk m).bolder = ⟨900⟩) ∧
    (FontWeight.mk 900).bolder = ⟨900⟩ := by
  refine ⟨?_, ?_, ?_, rfl⟩ <;> intros <;> simp only [FontWeight.bolder] <;> split_ifs <;>
    first | rfl | (exfalso; omega)

/-- C4 witness: `bolder` at the concrete weight 900. -/
theorem fontWeight_bolder_spec_witness : (FontWeight.mk 900).bolder = ⟨900⟩ :=
  (fontWeight_bolder_spec 900 (by decide)).2.2.1 (by decide)

/-- C5: `FontWeight::lighter` steps a magnitude `m < 600` to 100, a
magnitude in `[600, 800)` to 400 and a magnitude `≥ 800` to 700, over the
whole 16-bit range; in particular `FontWeight(100).lighter() = FontWeight(100)`. -/
theorem fontWeight_lighter_spec (m : Nat) (h : m < 65536) :
    (m < 600 → (FontWeight.mk m).lighter = ⟨100⟩) ∧
    (600 ≤ m → m < 800 → (FontWeight.mk m).lighter = ⟨400⟩) ∧
    (800 ≤ m → (FontWeight.mk m).lighter = ⟨700⟩) ∧
    (FontWeight.mk 100).lighter = ⟨100⟩ := by
  refine ⟨?_, ?_, ?_, rfl⟩ <;> intros <;> simp only [FontWeight.lighter] <;> split_ifs <;>
    first | rfl | (exfalso; omega)

/-- C5 witness: `lighter` at the concrete weight 100. -/
theorem fontWeight_lighter_spec_witness : (FontWeight.mk 100).lighter = ⟨100⟩ :=
  (fontWeight_lighter_spec 100 (by decide)).1 (by decide)

/-- C6: `FontWeight::from_int` succeeds exactly on the multiples of 100
in `[100, 900]`, returning the weight with that magnitude, and fails with
the payload-free error on every other integer. -/
theorem fontWeight_from_int_spec (n : Int) :
    (FontWeight.from_int n = Except.ok ⟨n.toNat⟩ ↔
      100 ≤ n ∧ n ≤ 900 ∧ (100 : Int) ∣ n) ∧
    (FontWeight.from_int n = Except.error () ↔
      ¬(100 ≤ n ∧ n ≤ 900 ∧ (100 : Int) ∣ n)) ∧
    (∀ w, FontWeight.from_int n = Except.ok w → (w.val : Int) = n) := by
  have hc : (n ≥ 100 ∧ n ≤ 900 ∧ Int.tmod n 100 = 0) ↔
      (100 ≤ n ∧ n ≤ 900 ∧ (100 : Int) ∣ n) := by
    constructor
    · rintro ⟨h1, h2, h3⟩
      exact ⟨h1, h2, (tmod_hundred_eq_zero_iff n (by omega)).mp h3⟩
    · rintro ⟨h1, h2, h3⟩
      exact ⟨h1, h2, (tmod_hundred_eq_zero_iff n (by omega)).mpr h3⟩
  refine ⟨?_, ?_, ?_⟩
  · unfold FontWeight.from_int
    split_ifs with hcnd
    · exact iff_of_true rfl (hc.mp hcnd)
    · exact iff_of_false (by simp) fun hcond => hcnd (hc.mpr hcond)
  · unfold FontWeight.from_int
    split_ifs with hcnd
    · exact iff_of_false (by simp) fun hne => hne (hc.mp hcnd)
    · exact iff_of_true rfl fun hcond => hcnd (hc.mpr hcond)
  · intro w hw
    unfold FontWeight.from_int at hw
    split_ifs at hw with hcnd
    injection hw with hw2
    subst hw2
    exact Int.toNat_of_nonneg (by omega)

/-- C6 witness: `from_int` at the concrete inputs 400 and 450. -/
theorem fontWeight_from_int_spec_witness :
    FontWeight.from_int 400 = Except.ok ⟨400⟩ ∧
    FontWeight.from_int 450 = Except.error () :=
  ⟨(fontWeight_from_int_spec 400).1.mpr ⟨by decide, by decide, ⟨4, by decide⟩⟩,
   (fontWeight_from_int_spec 450).2.1.mpr (by decide)⟩

/-- C7: `FontWeight::is_bold` holds exactly for magnitudes above 500;
in particular it is false at 500 and true at 501. -/
theorem fontWeight_is_bold_spec (m : Nat) (h : m < 65536) :
    ((FontWeight.mk m).is_bold = true ↔ 500 < m) ∧
    (FontWeight.mk 500).is_bold = false ∧
    (FontWeight.mk 501).is_bold = true := by
  refine ⟨?_, rfl, rfl⟩
  simp [FontWeight.is_bold]

/-- C7 witness: `is_bold` at the concrete weight 501. -/
theorem fontWeight_is_bold_spec_witness : (FontWeight.mk 501).is_bold = true :=
  (fontWeight_is_bold_spec 501 (by decide)).2.2

/-- C8: `FontWeight::from_gecko_weight` never fails and preserves every
16-bit magnitude exactly, including the out-of-grid 350, 380 and 1000. -/
theorem fontWeight_from_gecko_spec (m : Nat) (h : m < 65536) :
    FontWeight.from_gecko_weight m = ⟨m⟩ ∧
    FontWeight.from_gecko_weight 350 = ⟨350⟩ ∧
    FontWeight.from_gecko_weight 380 = ⟨380⟩ ∧
    FontWeight.from_gecko_weight 1000 = ⟨1000⟩ :=
  ⟨rfl, rfl, rfl, rfl⟩

/-- C8 witness: `from_gecko_weight` at the concrete magnitude 350. -/
theorem fontWeight_from_gecko_spec_witness :
    FontWeight.from_gecko_weight 350 = ⟨350⟩ :=
  (fontWeight_from_gecko_spec 350 (by decide)).1

/-- C9: each `FontStretch` keyword serializes to exactly its
hyphen-separated CSS keyword, each `FontVariantCaps` keyword to `normal`
or `small-caps`, and parsing and serialization are mutually inverse on
these strings. -/
theorem keyword_text_forms :
    (FontStretch.Normal.to_css = "normal" ∧
     FontStretch.UltraCondensed.to_css = "ultra-condensed" ∧
     FontStretch.ExtraCondensed.to_css = "extra-condensed" ∧
     FontStretch.Condensed.to_css = "condensed" ∧
     FontStretch.SemiCondensed.to_css = "semi-condensed" ∧
     FontStretch.SemiExpanded.to_css = "semi-expanded" ∧
     FontStretch.Expanded.to_css = "expanded" ∧
     FontStretch.ExtraExpanded.to_css = "extra-expanded" ∧
     FontStretch.UltraExpanded.to_css = "ultra-expanded") ∧
    (FontVariantCaps.Normal.to_css = "normal" ∧
     FontVariantCaps.SmallCaps.to_css = "small-caps") ∧
    (∀ s : FontStretch, FontStretch.from_css s.to_css = some s) ∧
    (∀ s str, FontStretch.from_css str = some s → str = s.to_css) ∧
    (∀ c : FontVariantCaps, FontVariantCaps.from_css c.to_css = some c) ∧
    (∀ c str, FontVariantCaps.from_css str = some c → str = c.to_css) := by
  refine ⟨⟨rfl, rfl, rfl, rfl, rfl, rfl, rfl, rfl, rfl⟩, ⟨rfl, rfl⟩, ?_, ?_, ?_, ?_⟩
  · intro s; cases s <;> rfl
  · intro s str hsome
    unfold FontStretch.from_css at hsome
    split_ifs at hsome <;>
      (injection hsome with hs; subst hs; simp only [FontStretch.to_css]; assumption)
  · intro c; cases c <;> rfl
  · intro c str hsome
    unfold FontVariantCaps.from_css at hsome
    split_ifs at hsome <;>
      (injection hsome with hc; subst hc; simp only [FontVariantCaps.to_css]; assumption)

/-- C9 witness: parse after serialize at the concrete keyword `normal`. -/
theorem keyword_text_forms_witness :
    FontStretch.from_css FontStretch.Normal.to_css = some FontStretch.Normal :=
  keyword_text_forms.2.2.1 FontStretch.Normal

/-- C10: for every 16-bit magnitude, `bolder` lands in `{400, 700, 900}`
and `lighter` in `{100, 400, 700}`, so `from_int` applied to either
result's magnitude always succeeds — the stepping functions land back on
the valid authored-CSS weight grid even from off-grid inputs. -/
theorem fontWeight_step_grid (m : Nat) (h : m < 65536) :
    ((FontWeight.mk m).bolder.val = 400 ∨ (FontWeight.mk m).bolder.val = 700 ∨
      (FontWeight.mk m).bolder.val = 900) ∧
    ((FontWeight.mk m).lighter.val = 100 ∨ (FontWeight.mk m).lighter.val = 400 ∨
      (FontWeight.mk m).lighter.val = 700) ∧
    FontWeight.from_int ((FontWeight.mk m).bolder.val : Int) =
      Except.ok ⟨(FontWeight.mk m).bolder.val⟩ ∧
    FontWeight.from_int ((FontWeight.mk m).lighter.val : Int) =
      Except.ok ⟨(FontWeight.mk m).lighter.val⟩ := by
  simp only [FontWeight.bolder, FontWeight.lighter]
  split_ifs <;> exact ⟨by decide, by decide, rfl, rfl⟩

/-- C10 witness: the stepping functions at the concrete off-grid
magnitude 350. -/
theorem fontWeight_step_grid_witness :
    FontWeight.from_int ((FontWeight.mk 350).bolder.val : Int) =
      Except.ok ⟨(FontWeight.mk 350).bolder.val⟩ :=
  (fontWeight_step_grid 350 (by decide)).2.2.1

end Servo.Font
